import Mathlib

/-!
Verification of the geospatial candidate search and panorama reprojection
core of the agnived_ai repository.

The embedded functions follow `GLYTCH'25/GoogleMapDB/GoogleVR3/GoogleVR1.py`
(geo helpers, Mapillary candidate ranking, equirectangular reprojection,
view-set generation) and `GLYTCH'25/PipeLine3.0/server_fastapi.py` (the
`/panos` endpoint).  Python floats are modelled as real numbers; the
trigonometric functions of `math`/`numpy` are modelled by the exact real
functions.  Network and filesystem effects are modelled by explicit
parameters (the list of records a query returns, a store mapping image ids
to stored panoramas).
-/

namespace AgniVed

open Classical

/-- Model of the two-argument arctangent `math.atan2 y x` / `np.arctan2`
(the C library convention: result in `(-pi, pi]`, `atan2 0 0 = 0`). -/
noncomputable def atan2 (y x : ℝ) : ℝ :=
  if 0 < x then Real.arctan (y / x)
  else if x < 0 then
    (if 0 ≤ y then Real.arctan (y / x) + Real.pi else Real.arctan (y / x) - Real.pi)
  else
    (if 0 < y then Real.pi / 2 else if y < 0 then -(Real.pi / 2) else 0)

/-- Model of `math.radians` / `np.deg2rad`: degrees to radians. -/
noncomputable def radians (d : ℝ) : ℝ := d * (Real.pi / 180)

/-- Embedding of `haversine_distance_m` (GoogleVR3/GoogleVR1.py, lines 40-56):
great-circle distance in meters between two latitude/longitude pairs, with
Earth radius 6371000 m. -/
noncomputable def haversine_distance_m (lat1 lon1 lat2 lon2 : ℝ) : ℝ :=
  let R : ℝ := 6371000
  let phi1 := radians lat1
  let phi2 := radians lat2
  let dphi := radians (lat2 - lat1)
  let dlambda := radians (lon2 - lon1)
  let a := Real.sin (dphi / 2) ^ 2
    + Real.cos phi1 * Real.cos phi2 * Real.sin (dlambda / 2) ^ 2
  let c := 2 * atan2 (Real.sqrt a) (Real.sqrt (1 - a))
  R * c

/-- The dictionary returned by `bbox_from_point`. -/
structure BBox where
  min_lat : ℝ
  max_lat : ℝ
  min_lon : ℝ
  max_lon : ℝ

/-- Embedding of `bbox_from_point` (GoogleVR3/GoogleVR1.py, lines 59-79):
approximate bounding box around a point for a given radius in meters.  The
Python function performs no input validation and always returns a box. -/
noncomputable def bbox_from_point (lat lon radius_m : ℝ) : BBox :=
  let delta_lat := radius_m / 111320
  let lat_rad := radians lat
  let meters_per_deg_lon := 111320 * max (Real.cos lat_rad) 1e-6
  let delta_lon := radius_m / meters_per_deg_lon
  { min_lat := lat - delta_lat
    max_lat := lat + delta_lat
    min_lon := lon - delta_lon
    max_lon := lon + delta_lon }

/-- Membership of a latitude/longitude pair in a bounding box. -/
def InBox (b : BBox) (lat lon : ℝ) : Prop :=
  b.min_lat ≤ lat ∧ lat ≤ b.max_lat ∧ b.min_lon ≤ lon ∧ lon ≤ b.max_lon

/- ------------------------------------------------------------------ -/
/- Helper lemmas about the geo functions.                             -/
/- ------------------------------------------------------------------ -/

lemma atan2_of_pos (y x : ℝ) (hx : 0 < x) : atan2 y x = Real.arctan (y / x) := by
  unfold atan2
  rw [if_pos hx]

lemma atan2_zero_zero : atan2 0 0 = 0 := by
  unfold atan2
  norm_num

lemma haversine_self (lat lon : ℝ) : haversine_distance_m lat lon lat lon = 0 := by
  unfold haversine_distance_m
  simp only [sub_self]
  have h0 : radians 0 = 0 := by unfold radians; ring
  rw [h0]
  norm_num
  rw [atan2_of_pos 0 1 one_pos]
  norm_num

lemma haversine_comm (lat1 lon1 lat2 lon2 : ℝ) :
    haversine_distance_m lat1 lon1 lat2 lon2 = haversine_distance_m lat2 lon2 lat1 lon1 := by
  unfold haversine_distance_m
  have hsin : ∀ u v : ℝ, Real.sin (radians (u - v) / 2) ^ 2
      = Real.sin (radians (v - u) / 2) ^ 2 := by
    intro u v
    have h : radians (u - v) / 2 = -(radians (v - u) / 2) := by unfold radians; ring
    rw [h, Real.sin_neg]
    ring
  simp only [hsin lat2 lat1, hsin lon2 lon1, mul_comm (Real.cos (radians lat1))]

lemma cos_zero_max : max (Real.cos (radians 0)) 1e-6 = 1 := by
  have h : radians 0 = 0 := by unfold radians; ring
  rw [h, Real.cos_zero, max_eq_left (by norm_num)]

/- ------------------------------------------------------------------ -/
/- C6: haversine symmetry and zero on coincident points.              -/
/- ------------------------------------------------------------------ -/

/-- C6: for all coordinate pairs, `haversine_distance_m` is symmetric in its
two points, and it returns 0 when both points coincide. -/
theorem haversine_symm_and_self_zero :
    (∀ lat1 lon1 lat2 lon2 : ℝ,
      haversine_distance_m lat1 lon1 lat2 lon2 = haversine_distance_m lat2 lon2 lat1 lon1)
    ∧ (∀ lat lon : ℝ, haversine_distance_m lat lon lat lon = 0) :=
  ⟨haversine_comm, haversine_self⟩

/- ------------------------------------------------------------------ -/
/- C5: bbox_from_point and non-positive radii.                        -/
/- ------------------------------------------------------------------ -/

/-- C5 counterexample: `bbox_from_point` does not fail on a non-positive
radius.  At radius -1 it returns a concrete (inverted) box, so the claim
that it raises `InvalidInput` and returns no box for `radiusMeters <= 0`
is false on the code: the Python function has no validation and no raise
statement. -/
theorem bbox_from_point_neg_radius_returns_box :
    bbox_from_point 0 0 (-1)
      = { min_lat := 1 / 111320, max_lat := -(1 / 111320),
          min_lon := 1 / 111320, max_lon := -(1 / 111320) } := by
  simp only [bbox_from_point]
  rw [cos_zero_max]
  norm_num

/-- C5 amended: `bbox_from_point` performs no input validation: for every
`radius_m ≤ 0` it still returns a box, and that box is degenerate or
inverted (`max_lat ≤ min_lat` and `max_lon ≤ min_lon`, with equality only
at radius 0). -/
theorem bbox_from_point_nonpos_radius_degenerate (lat lon radius_m : ℝ)
    (h : radius_m ≤ 0) :
    (bbox_from_point lat lon radius_m).max_lat ≤ (bbox_from_point lat lon radius_m).min_lat
    ∧ (bbox_from_point lat lon radius_m).max_lon ≤ (bbox_from_point lat lon radius_m).min_lon := by
  simp only [bbox_from_point]
  have hden : (0:ℝ) < 111320 * max (Real.cos (radians lat)) 1e-6 := by
    have : (1e-6 : ℝ) ≤ max (Real.cos (radians lat)) 1e-6 := le_max_right _ _
    nlinarith
  have hlat : radius_m / 111320 ≤ 0 := div_nonpos_of_nonpos_of_nonneg h (by norm_num)
  have hlon : radius_m / (111320 * max (Real.cos (radians lat)) 1e-6) ≤ 0 :=
    div_nonpos_of_nonpos_of_nonneg h hden.le
  exact ⟨by linarith, by linarith⟩

/-- Witness for the amended C5 theorem at a concrete input. -/
theorem bbox_from_point_nonpos_radius_degenerate_witness :
    ((-1 : ℝ) ≤ 0)
    ∧ ((bbox_from_point 0 0 (-1)).max_lat ≤ (bbox_from_point 0 0 (-1)).min_lat
       ∧ (bbox_from_point 0 0 (-1)).max_lon ≤ (bbox_from_point 0 0 (-1)).min_lon) :=
  ⟨by norm_num, bbox_from_point_nonpos_radius_degenerate 0 0 (-1) (by norm_num)⟩

/- ------------------------------------------------------------------ -/
/- C4: bounding box versus the radius disc.                           -/
/- ------------------------------------------------------------------ -/

lemma pi_div_360_pos : (0:ℝ) < Real.pi / 360 := by positivity

lemma pi_div_360_lt_half_pi : Real.pi / 360 < Real.pi / 2 := by
  have := Real.pi_pos
  linarith

/-- Exact value of the haversine distance along a meridian: from the equator
to latitude 1 degree (same longitude) the code computes exactly
`6371000 * (pi / 180)` meters. -/
lemma haversine_meridian_one_degree :
    haversine_distance_m 0 0 1 0 = 6371000 * (Real.pi / 180) := by
  have hrad0 : radians 0 = 0 := by unfold radians; ring
  have hrad1 : radians 1 = Real.pi / 180 := by unfold radians; ring
  have ht : Real.pi / 180 / 2 = Real.pi / 360 := by ring
  have hsinpos : 0 < Real.sin (Real.pi / 360) :=
    Real.sin_pos_of_pos_of_lt_pi pi_div_360_pos
      (by have := Real.pi_pos; linarith)
  have hcospos : 0 < Real.cos (Real.pi / 360) :=
    Real.cos_pos_of_mem_Ioo
      ⟨by have := Real.pi_pos; linarith [pi_div_360_pos], pi_div_360_lt_half_pi⟩
  simp only [haversine_distance_m]
  rw [sub_zero, sub_self, hrad0, hrad1, ht]
  rw [zero_div, Real.sin_zero]
  have ha : Real.sin (Real.pi / 360) ^ 2 + Real.cos 0 * Real.cos (Real.pi / 180) * 0 ^ 2
      = Real.sin (Real.pi / 360) ^ 2 := by ring
  rw [ha]
  have hs1 : Real.sqrt (Real.sin (Real.pi / 360) ^ 2) = Real.sin (Real.pi / 360) :=
    Real.sqrt_sq hsinpos.le
  have hs2 : Real.sqrt (1 - Real.sin (Real.pi / 360) ^ 2) = Real.cos (Real.pi / 360) := by
    rw [← Real.cos_sq']
    exact Real.sqrt_sq hcospos.le
  rw [hs1, hs2, atan2_of_pos _ _ hcospos, ← Real.tan_eq_sin_div_cos,
    Real.arctan_tan (by have := Real.pi_pos; linarith [pi_div_360_pos]) pi_div_360_lt_half_pi]
  ring

/-- C4 counterexample: the bounding box is not a superset of the radius
disc.  For the center (0, 0) and radius 111250 m (positive), the point at
latitude 1, longitude 0 is within the radius (its haversine distance is
`6371000 * pi / 180 < 111250`), yet it lies outside the returned box,
because the box's latitude half-height `111250 / 111320` degrees is less
than 1 degree (the code's 111320 m/degree overestimates the true
`6371000 * pi / 180` m/degree, so the box is slightly too small). -/
theorem bbox_not_superset_of_disc :
    (0:ℝ) < 111250
    ∧ haversine_distance_m 0 0 1 0 ≤ 111250
    ∧ ¬ InBox (bbox_from_point 0 0 111250) 1 0 := by
  refine ⟨by norm_num, ?_, ?_⟩
  · rw [haversine_meridian_one_degree]
    nlinarith [Real.pi_lt_d6]
  · intro h
    have hmax : (bbox_from_point 0 0 111250).max_lat = 111250 / 111320 := by
      simp only [bbox_from_point]
      norm_num
    have h2 := h.2.1
    rw [hmax] at h2
    norm_num at h2

/-- C4 amended: only the center-containment half of the claim holds: for
every center and every nonnegative radius, the center lies inside the box
returned by `bbox_from_point`.  The superset half is false (see the
counterexample): a point within `radius_m` of the center can lie outside
the box. -/
theorem bbox_contains_center (lat lon radius_m : ℝ) (h : 0 ≤ radius_m) :
    InBox (bbox_from_point lat lon radius_m) lat lon := by
  have hden : (0:ℝ) < 111320 * max (Real.cos (radians lat)) 1e-6 := by
    have : (1e-6 : ℝ) ≤ max (Real.cos (radians lat)) 1e-6 := le_max_right _ _
    nlinarith
  have hlat : 0 ≤ radius_m / 111320 := by positivity
  have hlon : 0 ≤ radius_m / (111320 * max (Real.cos (radians lat)) 1e-6) :=
    div_nonneg h hden.le
  simp only [bbox_from_point, InBox]
  exact ⟨by linarith, by linarith, by linarith, by linarith⟩

/-- Witness for the amended C4 theorem at a concrete input. -/
theorem bbox_contains_center_witness :
    ((0:ℝ) ≤ 100) ∧ InBox (bbox_from_point 12 80 100) 12 80 :=
  ⟨by norm_num, bbox_contains_center 12 80 100 (by norm_num)⟩

/- ------------------------------------------------------------------ -/
/- The Mapillary candidate search (find_nearest_vr_images).           -/
/- ------------------------------------------------------------------ -/

/-- A raw record of the Mapillary image catalog as consumed by
`find_nearest_vr_images`: `coords` holds `geometry.coordinates` in
longitude-first order; `none` models a record with missing or malformed
coordinates (skipped by the loop). -/
structure RawImage where
  id : String
  coords : Option (ℝ × ℝ)
  is_pano : Bool
  thumb_2048_url : Option String

/-- One entry of the list returned by `find_nearest_vr_images`. -/
structure VrResult where
  id : String
  lat : ℝ
  lon : ℝ
  distance_m : ℝ
  is_pano : Bool
  thumb_2048_url : Option String

/-- The loop body of `find_nearest_vr_images` (lines 129-150): a record with
missing coordinates is skipped, otherwise a result entry is built with the
haversine distance from the query center (coordinates arrive
longitude-first). -/
noncomputable def vr_record (lat lon : ℝ) (img : RawImage) : Option VrResult :=
  match img.coords with
  | none => none
  | some c =>
      some { id := img.id
             lat := c.2
             lon := c.1
             distance_m := haversine_distance_m lat lon c.2 c.1
             is_pano := img.is_pano
             thumb_2048_url := img.thumb_2048_url }

/-- The sort comparison of `results.sort(key=lambda r: r["distance_m"])`. -/
noncomputable def vr_le (a b : VrResult) : Bool :=
  decide (a.distance_m ≤ b.distance_m)

/-- Embedding of `find_nearest_vr_images` (GoogleVR3/GoogleVR1.py, lines
85-156).  The bounding box derived from `(lat, lon, radius_m)` only
parameterises the external Mapillary HTTP query; the `images` argument
models the record list that query returns.  For each record with
coordinates the code computes the haversine distance to the center and
appends a result; it performs no radius filtering.  Finally it sorts by
`distance_m` (Python's stable list sort, modelled by the stable
`List.mergeSort`) and keeps the first `n` entries.  The caller (`index`,
lines 316-321) coerces `n <= 0` to 1, so `n` is a natural number here. -/
noncomputable def find_nearest_vr_images (lat lon : ℝ) (n : ℕ) (radius_m : ℝ)
    (images : List RawImage) : List VrResult :=
  let _bbox := bbox_from_point lat lon radius_m
  ((images.filterMap (vr_record lat lon)).mergeSort vr_le).take n

/-- The ordering asserted by the spec for the returned candidates:
strictly increasing distance, with ties broken by ascending id. -/
def DistThenIdSorted (l : List VrResult) : Prop :=
  l.Pairwise fun a b =>
    a.distance_m < b.distance_m ∨ (a.distance_m = b.distance_m ∧ a.id ≤ b.id)

/- ------------------------------------------------------------------ -/
/- C2: result count, distance order, tie-breaking.                    -/
/- ------------------------------------------------------------------ -/

/-- C2 counterexample: ties are not broken by ascending id.  Python's
`list.sort` is stable, so two records at the same distance keep their
source order.  With the source returning ids "b" then "a", both at the
center itself (distance 0), the output lists "b" before "a". -/
theorem find_nearest_tie_not_id_sorted :
    ¬ DistThenIdSorted (find_nearest_vr_images 0 0 2 100
      [{ id := "b", coords := some (0, 0), is_pano := false, thumb_2048_url := none },
       { id := "a", coords := some (0, 0), is_pano := false, thumb_2048_url := none }]) := by
  intro h
  have hd : haversine_distance_m 0 0 0 0 = 0 := haversine_self 0 0
  have heval : find_nearest_vr_images 0 0 2 100
      [{ id := "b", coords := some (0, 0), is_pano := false, thumb_2048_url := none },
       { id := "a", coords := some (0, 0), is_pano := false, thumb_2048_url := none }]
      = [{ id := "b", lat := 0, lon := 0, distance_m := haversine_distance_m 0 0 0 0,
           is_pano := false, thumb_2048_url := none },
         { id := "a", lat := 0, lon := 0, distance_m := haversine_distance_m 0 0 0 0,
           is_pano := false, thumb_2048_url := none }] := by
    simp only [find_nearest_vr_images, List.filterMap, vr_record]
    rw [List.mergeSort_of_sorted]
    · rfl
    · constructor
      · intro b hb
        simp only [List.mem_cons, List.not_mem_nil, or_false] at hb
        subst hb
        simp [vr_le]
      · constructor
        · intro b hb
          simp at hb
        · exact List.Pairwise.nil
  rw [heval] at h
  unfold DistThenIdSorted at h
  have hrel := List.rel_of_pairwise_cons h (List.mem_singleton.mpr rfl)
  rcases hrel with hlt | ⟨heq, hle⟩
  · exact lt_irrefl _ hlt
  · have hba : ("b" : String) ≤ "a" := hle
    rw [String.le_iff_toList_le] at hba
    exact absurd hba (by decide)

/-- C2 amended: `find_nearest_vr_images` returns at most `n` results and
the returned sequence is sorted by non-decreasing `distance_m`, but
candidates at equal distance appear in the order the source returned them
(stable sort), not in ascending id order. -/
theorem find_nearest_count_and_sorted (lat lon : ℝ) (n : ℕ) (radius_m : ℝ)
    (images : List RawImage) :
    (find_nearest_vr_images lat lon n radius_m images).length ≤ n
    ∧ (find_nearest_vr_images lat lon n radius_m images).Pairwise
        fun a b => a.distance_m ≤ b.distance_m := by
  constructor
  · exact List.length_take_le n _
  · have hsorted := @List.sorted_mergeSort VrResult vr_le
      (fun a b c hab hbc => by
        simp only [vr_le, decide_eq_true_eq] at hab hbc ⊢
        exact le_trans hab hbc)
      (fun a b => by
        simp only [vr_le, Bool.or_eq_true, decide_eq_true_eq]
        exact le_total a.distance_m b.distance_m)
      (images.filterMap (vr_record lat lon))
    have hsorted2 : ((images.filterMap (vr_record lat lon)).mergeSort vr_le).Pairwise
        fun a b : VrResult => a.distance_m ≤ b.distance_m := by
      refine hsorted.imp ?_
      intro a b hab
      simpa [vr_le] using hab
    exact hsorted2.sublist (List.take_sublist _ _)

/- ------------------------------------------------------------------ -/
/- C1: no exact radius re-filtering happens.                          -/
/- ------------------------------------------------------------------ -/

/-- Numeric lower bound used for C1: the point at latitude and longitude
0.00089 degrees (inside the 100 m bounding box around the origin, whose
half-extent is 100/111320 = 0.0008983... degrees) is more than 100 m from
the origin: its true distance is about 140 m, since the bounding box
corner is sqrt 2 times the radius away. -/
lemma atan2_sqrt_lb (a : ℝ) (ha_lb : (1.145e-10 : ℝ) < a) (ha_ub : a < 1.3e-10) :
    (8e-6 : ℝ) < atan2 (Real.sqrt a) (Real.sqrt (1 - a)) := by
  have hpil : 3.141592 < Real.pi := Real.pi_gt_d6
  have ha_nonneg : (0 : ℝ) ≤ a := by linarith
  have hsqrta : (1.07e-5 : ℝ) < Real.sqrt a := by
    have h107 : (1.07e-5 : ℝ) = Real.sqrt ((1.07e-5) ^ 2) :=
      (Real.sqrt_sq (by norm_num)).symm
    rw [h107]
    exact Real.sqrt_lt_sqrt (by positivity) (by nlinarith)
  have h1ma_pos : (0 : ℝ) < 1 - a := by linarith
  have hsq1ma_pos : 0 < Real.sqrt (1 - a) := Real.sqrt_pos.mpr h1ma_pos
  have hsq1ma_le1 : Real.sqrt (1 - a) ≤ 1 :=
    (Real.sqrt_le_sqrt (by linarith)).trans_eq Real.sqrt_one
  rw [atan2_of_pos _ _ hsq1ma_pos]
  have ht_lb : (1.07e-5 : ℝ) < Real.sqrt a / Real.sqrt (1 - a) := by
    have hstep : Real.sqrt a ≤ Real.sqrt a / Real.sqrt (1 - a) := by
      rw [le_div_iff₀ hsq1ma_pos]
      exact mul_le_of_le_one_right (Real.sqrt_nonneg _) hsq1ma_le1
    linarith
  have htan : Real.tan (8e-6) < 1.07e-5 := by
    rw [Real.tan_eq_sin_div_cos]
    have hsin8 : Real.sin (8e-6) < 8e-6 := Real.sin_lt (by norm_num)
    have hcos8 : (0.9 : ℝ) < Real.cos (8e-6) := by
      have h : 1 - (8e-6 : ℝ) ^ 2 / 2 ≤ Real.cos (8e-6) :=
        Real.one_sub_sq_div_two_le_cos
      nlinarith
    rw [div_lt_iff₀ (by linarith)]
    nlinarith
  have h8 : Real.arctan (Real.tan (8e-6)) = 8e-6 :=
    Real.arctan_tan (by nlinarith) (by nlinarith)
  calc (8e-6 : ℝ) = Real.arctan (Real.tan (8e-6)) := h8.symm
  _ < Real.arctan (Real.sqrt a / Real.sqrt (1 - a)) :=
      Real.arctan_strictMono (lt_trans htan ht_lb)

lemma haversine_corner_gt_100 :
    100 < haversine_distance_m 0 0 (89 / 100000) (89 / 100000) := by
  have hpiu : Real.pi < 3.141593 := Real.pi_lt_d6
  have hpil : 3.141592 < Real.pi := Real.pi_gt_d6
  have hrad0 : radians 0 = 0 := by unfold radians; ring
  have hxval : radians (89 / 100000) = 89 / 100000 * (Real.pi / 180) := rfl
  simp only [haversine_distance_m, sub_zero]
  rw [hrad0, Real.cos_zero]
  set x : ℝ := radians (89 / 100000) with hxdef
  have hxl : (1.5533e-5 : ℝ) < x := by rw [hxval]; nlinarith
  have hxu : x < 1.5534e-5 := by rw [hxval]; nlinarith
  have ha_eq : Real.sin (x / 2) ^ 2 + 1 * Real.cos x * Real.sin (x / 2) ^ 2
      = Real.sin (x / 2) ^ 2 * (1 + Real.cos x) := by ring
  rw [ha_eq]
  -- bounds on sin (x/2)
  have hh2l : (7.7665e-6 : ℝ) < x / 2 := by linarith
  have hh2u : x / 2 < 7.767e-6 := by linarith
  have hsin_ub : Real.sin (x / 2) < 7.767e-6 :=
    lt_trans (Real.sin_lt (by linarith)) hh2u
  have hsin_pos : 0 < Real.sin (x / 2) :=
    Real.sin_pos_of_pos_of_lt_pi (by linarith) (by nlinarith)
  have hsin_lb : (7.766e-6 : ℝ) < Real.sin (x / 2) := by
    have hc := Real.sin_gt_sub_cube (show 0 < x / 2 by linarith)
      (show x / 2 ≤ 1 by linarith)
    have hcube1 : (x / 2) ^ 3 ≤ (7.767e-6 : ℝ) ^ 3 :=
      pow_le_pow_left₀ (by linarith) (by linarith) 3
    have hcube2 : ((7.767e-6 : ℝ)) ^ 3 < 1e-15 := by norm_num
    linarith
  -- bound on cos x
  have hcosx : (0.9 : ℝ) < Real.cos x := by
    have h : 1 - x ^ 2 / 2 ≤ Real.cos x := Real.one_sub_sq_div_two_le_cos
    nlinarith
  have hcosx_ub : Real.cos x ≤ 1 := Real.cos_le_one x
  -- bounds on the haversine quantity a
  have ha_lb : (1.145e-10 : ℝ) < Real.sin (x / 2) ^ 2 * (1 + Real.cos x) := by
    nlinarith
  have ha_ub : Real.sin (x / 2) ^ 2 * (1 + Real.cos x) < 1.3e-10 := by
    nlinarith
  have harc := atan2_sqrt_lb (Real.sin (x / 2) ^ 2 * (1 + Real.cos x)) ha_lb ha_ub
  linarith

/-- C1 (code bug): `find_nearest_vr_images` performs no exact radius
re-filtering, contradicting both the spec sentence and its own docstring
("up to N closest images to (lat, lon) within radius_m").  For the center
(0, 0) with radius 100 m, a source record at (0.00089, 0.00089) degrees
lies strictly inside the bounding box the query uses, yet its haversine
distance to the center exceeds 100 m; the function still returns it. -/
theorem find_nearest_returns_record_beyond_radius :
    ∃ r ∈ find_nearest_vr_images 0 0 5 100
      [{ id := "x", coords := some (89 / 100000, 89 / 100000),
         is_pano := true, thumb_2048_url := none }],
      100 < r.distance_m
      ∧ InBox (bbox_from_point 0 0 100) r.lat r.lon := by
  have heval : find_nearest_vr_images 0 0 5 100
      [{ id := "x", coords := some (89 / 100000, 89 / 100000),
         is_pano := true, thumb_2048_url := none }]
      = [{ id := "x", lat := 89 / 100000, lon := 89 / 100000,
           distance_m := haversine_distance_m 0 0 (89 / 100000) (89 / 100000),
           is_pano := true, thumb_2048_url := none }] := by
    simp only [find_nearest_vr_images, List.filterMap, vr_record]
    rw [List.mergeSort_singleton]
    rfl
  rw [heval]
  refine ⟨_, List.mem_singleton.mpr rfl, haversine_corner_gt_100, ?_⟩
  have hbox : bbox_from_point 0 0 100
      = { min_lat := -(5 / 5566), max_lat := 5 / 5566,
          min_lon := -(5 / 5566), max_lon := 5 / 5566 } := by
    simp only [bbox_from_point]
    rw [cos_zero_max]
    norm_num
  rw [hbox]
  unfold InBox
  norm_num

/- ------------------------------------------------------------------ -/
/- C3: greedy minimum-separation selection (spec-modelled).           -/
/- ------------------------------------------------------------------ -/

/-- Modelled from the spec: the repository's `GoogleVR4/core.py`
(`find_panos_and_views`, which implements the `min_distance_m` selection
invoked by `panos_api` in `PipeLine3.0/server_fastapi.py`, lines 104-119)
is not present under `src/`; only its caller and a test are.  The spec
describes the selection as: scan the distance-sorted candidates in order,
accept a candidate only if its distance to every previously accepted
candidate exceeds the separation threshold, and stop once `maxResults`
candidates are accepted or the candidates are exhausted.  `acc` carries
the accepted candidates most-recent-first. -/
noncomputable def select_separated_go (minSep : ℝ) (maxResults : ℕ) :
    List VrResult → List VrResult → List VrResult
  | [], acc => acc.reverse
  | c :: rest, acc =>
    if maxResults ≤ acc.length then acc.reverse
    else if acc.all fun p =>
        decide (minSep < haversine_distance_m p.lat p.lon c.lat c.lon) then
      select_separated_go minSep maxResults rest (c :: acc)
    else
      select_separated_go minSep maxResults rest acc

/-- Modelled from the spec: the greedy minimum-separation selection applied
to a distance-sorted candidate list (spec section 4.2, step 5). -/
noncomputable def select_separated (minSep : ℝ) (maxResults : ℕ)
    (cands : List VrResult) : List VrResult :=
  select_separated_go minSep maxResults cands []

lemma select_separated_go_spec (minSep : ℝ) (maxResults : ℕ) :
    ∀ (cands acc : List VrResult),
      acc.length ≤ maxResults →
      acc.Pairwise (fun a b =>
        minSep < haversine_distance_m b.lat b.lon a.lat a.lon) →
      (select_separated_go minSep maxResults cands acc).length ≤ maxResults
      ∧ (select_separated_go minSep maxResults cands acc).Pairwise
          (fun a b => minSep < haversine_distance_m a.lat a.lon b.lat b.lon) := by
  intro cands
  induction cands with
  | nil =>
    intro acc hlen hpw
    simp only [select_separated_go, List.length_reverse]
    exact ⟨hlen, (List.pairwise_reverse).mpr hpw⟩
  | cons c rest ih =>
    intro acc hlen hpw
    simp only [select_separated_go]
    by_cases hfull : maxResults ≤ acc.length
    · rw [if_pos hfull]
      simp only [List.length_reverse]
      exact ⟨hlen, (List.pairwise_reverse).mpr hpw⟩
    · rw [if_neg hfull]
      by_cases hsep : acc.all fun p =>
          decide (minSep < haversine_distance_m p.lat p.lon c.lat c.lon)
      · rw [if_pos hsep]
        apply ih
        · simp only [List.length_cons]
          omega
        · refine List.Pairwise.cons ?_ hpw
          intro p hp
          have := (List.all_eq_true.mp hsep) p hp
          simpa using this
      · rw [if_neg hsep]
        exact ih acc hlen hpw

/-- C3 (spec-modelled): the greedy selection returns at most `maxResults`
candidates, and every returned candidate's distance to every other
(earlier-accepted) returned candidate exceeds the separation threshold;
the scan stops at `maxResults` accepted or when candidates run out. -/
theorem select_separated_count_and_separation (minSep : ℝ) (maxResults : ℕ)
    (cands : List VrResult) :
    (select_separated minSep maxResults cands).length ≤ maxResults
    ∧ (select_separated minSep maxResults cands).Pairwise
        (fun a b => minSep < haversine_distance_m a.lat a.lon b.lat b.lon) :=
  select_separated_go_spec minSep maxResults cands []
    (by simp) List.Pairwise.nil

/- ------------------------------------------------------------------ -/
/- C7: idempotent panorama fetch (download-or-reuse).                 -/
/- ------------------------------------------------------------------ -/

/-- Embedding of the download step of `generate_normal_views_for_pano`
(GoogleVR3/GoogleVR1.py, lines 242-260): if a file for `imageId` already
exists in the panos store, it is reused without any network request;
otherwise the panorama is downloaded from `url` and stored.  `store` is an
association list from image id to the stored asset, `net` models the
network download, and the returned Boolean records whether a network
request was made. -/
def fetch_pano {α : Type} (net : String → α) (store : List (String × α))
    (imageId url : String) : List (String × α) × α × Bool :=
  match store.lookup imageId with
  | some p => (store, p, false)
  | none => ((imageId, net url) :: store, net url, true)

/-- C7: the panorama fetch is idempotent per image id.  First, when the
store already holds an asset for the id, `fetch_pano` returns exactly that
asset, leaves the store unchanged and performs no network access.  Second,
whatever the initial store, a second call for the same id (with any url)
performs no network access and returns the same asset and store as the
first call. -/
theorem fetch_pano_idempotent :
    (∀ (α : Type) (net : String → α) (store : List (String × α))
        (imageId url : String) (p : α),
      store.lookup imageId = some p →
      fetch_pano net store imageId url = (store, p, false))
    ∧ (∀ (α : Type) (net : String → α) (store : List (String × α))
        (imageId url url2 : String),
      fetch_pano net (fetch_pano net store imageId url).1 imageId url2
        = ((fetch_pano net store imageId url).1,
           (fetch_pano net store imageId url).2.1, false)) := by
  constructor
  · intro α net store imageId url p hp
    unfold fetch_pano
    rw [hp]
  · intro α net store imageId url url2
    unfold fetch_pano
    cases hl : store.lookup imageId with
    | some p => simp [hl]
    | none => simp [hl, List.lookup_cons]

/-- Witness for C7 at a concrete store: the id "x" is present, so the
fetch returns the stored value 5, an unchanged store and no network
access. -/
theorem fetch_pano_idempotent_witness :
    ([("x", 5)] : List (String × ℕ)).lookup "x" = some 5
    ∧ fetch_pano (fun _ => 7) [("x", 5)] "x" "u" = ([("x", 5)], 5, false) := by
  have h : ([("x", 5)] : List (String × ℕ)).lookup "x" = some 5 := by
    simp [List.lookup_cons]
  exact ⟨h, fetch_pano_idempotent.1 ℕ (fun _ => 7) [("x", 5)] "x" "u" 5 h⟩

/- ------------------------------------------------------------------ -/
/- The reprojection engine (perspective_from_equirect).               -/
/- ------------------------------------------------------------------ -/

/-- One BGR pixel (the panorama arrays are H x W x 3). -/
def Pix : Type := Fin 3 → ℝ

/-- The zero pixel, used as an out-of-bounds default when reading the
output raster in proofs. -/
def zeroPix : Pix := fun _ => 0

/-- An in-memory raster: width, height and the pixel value at each
(column, row) index pair. -/
structure Image where
  w : ℕ
  h : ℕ
  pix : ℕ → ℕ → Pix

/-- Element `i` of `np.linspace a b n`: `n` evenly spaced samples over the
closed interval from `a` to `b` (for `n = 1` numpy returns `[a]`). -/
noncomputable def linspace_at (a b : ℝ) (n i : ℕ) : ℝ :=
  if n ≤ 1 then a else a + (b - a) * i / ((n : ℝ) - 1)

/-- The panorama source coordinates `(x_pano, y_pano)` computed by
`perspective_from_equirect` (GoogleVR3/GoogleVR1.py, lines 176-233) for the
output pixel in column `px` of row `py`: normalized ray through the pixel
of the focal-length grid, pitch rotation about the horizontal axis, then
yaw rotation about the vertical axis, conversion to spherical angles, and
linear mapping onto the equirectangular panorama of size
`w_in` x `h_in`. -/
noncomputable def src_coords (w_in h_in : ℕ) (yaw_deg pitch_deg fov_deg : ℝ)
    (out_w out_h : ℕ) (px py : ℕ) : ℝ × ℝ :=
  let yaw := radians yaw_deg
  let pitch := radians pitch_deg
  let fov := radians fov_deg
  let f := 0.5 * (out_w : ℝ) / Real.tan (fov / 2)
  let xg := linspace_at (-(out_w : ℝ) / 2) ((out_w : ℝ) / 2) out_w px
  let yg := linspace_at (-(out_h : ℝ) / 2) ((out_h : ℝ) / 2) out_h py
  let x0 := xg
  let y0 := -yg
  let z0 := f
  let norm := Real.sqrt (x0 * x0 + y0 * y0 + z0 * z0)
  let x := x0 / norm
  let y := y0 / norm
  let z := z0 / norm
  let y_p := y * Real.cos pitch - z * Real.sin pitch
  let z_p := y * Real.sin pitch + z * Real.cos pitch
  let x_p := x
  let x_y := x_p * Real.cos yaw + z_p * Real.sin yaw
  let y_y := y_p
  let z_y := -x_p * Real.sin yaw + z_p * Real.cos yaw
  let lon := atan2 x_y z_y
  let lat := Real.arcsin y_y
  ((lon / (2 * Real.pi) + 0.5) * (w_in : ℝ), (0.5 - lat / Real.pi) * (h_in : ℝ))

/-- Model of `cv2.remap(pano, map_x, map_y, interpolation=cv2.INTER_LINEAR,
borderMode=cv2.BORDER_WRAP)` at one source coordinate pair `(x, y)`:
bilinear blend of the four surrounding pixels, with out-of-range indices
wrapped modulo the image size on BOTH axes (`BORDER_WRAP` tiles the image
plane periodically in x and in y). -/
noncomputable def sample_wrap (img : Image) (x y : ℝ) : Pix :=
  let x0 : ℤ := ⌊x⌋
  let y0 : ℤ := ⌊y⌋
  let fx : ℝ := x - x0
  let fy : ℝ := y - y0
  let P : ℤ → ℤ → Pix := fun i j =>
    img.pix (i % (img.w : ℤ)).toNat (j % (img.h : ℤ)).toNat
  fun k =>
    (1 - fy) * ((1 - fx) * P x0 y0 k + fx * P (x0 + 1) y0 k)
      + fy * ((1 - fx) * P x0 (y0 + 1) k + fx * P (x0 + 1) (y0 + 1) k)

/-- The sampling rule in the words of the spec, for comparison with
`sample_wrap`: the horizontal source coordinate wraps modulo the panorama
width, while the vertical source coordinate is clamped to the valid row
range and never wraps. -/
noncomputable def sample_hwrap_vclamp (img : Image) (x y : ℝ) : Pix :=
  let x0 : ℤ := ⌊x⌋
  let y0 : ℤ := ⌊y⌋
  let fx : ℝ := x - x0
  let fy : ℝ := y - y0
  let P : ℤ → ℤ → Pix := fun i j =>
    img.pix (i % (img.w : ℤ)).toNat (max 0 (min j ((img.h : ℤ) - 1))).toNat
  fun k =>
    (1 - fy) * ((1 - fx) * P x0 y0 k + fx * P (x0 + 1) y0 k)
      + fy * ((1 - fx) * P x0 (y0 + 1) k + fx * P (x0 + 1) (y0 + 1) k)

/-- Embedding of `perspective_from_equirect` (GoogleVR3/GoogleVR1.py,
lines 176-239): the output raster as a list of `out_h` rows of `out_w`
pixels, each sampled from the panorama at the coordinates of `src_coords`
with the bilinear `BORDER_WRAP` sampler. -/
noncomputable def perspective_from_equirect (pano : Image)
    (yaw_deg pitch_deg fov_deg : ℝ) (out_w out_h : ℕ) : List (List Pix) :=
  (List.range out_h).map fun py =>
    (List.range out_w).map fun px =>
      let sc := src_coords pano.w pano.h yaw_deg pitch_deg fov_deg out_w out_h px py
      sample_wrap pano sc.1 sc.2

/- ------------------------------------------------------------------ -/
/- C10: output raster dimensions.                                     -/
/- ------------------------------------------------------------------ -/

/-- C10: for every panorama with positive dimensions and every
configuration with a field of view strictly between 0 and 180 degrees and
positive output resolution, the perspective projection returns a raster
with exactly `out_h` rows of exactly `out_w` pixels each, independent of
the panorama's dimensions and of the yaw and pitch angles (the pixel type
carries the fixed 3-channel layout of the source arrays). -/
theorem perspective_from_equirect_dims (pano : Image)
    (yaw_deg pitch_deg fov_deg : ℝ) (out_w out_h : ℕ)
    (hw : 0 < pano.w) (hh : 0 < pano.h)
    (hfov1 : 0 < fov_deg) (hfov2 : fov_deg < 180)
    (how : 0 < out_w) (hoh : 0 < out_h) :
    (perspective_from_equirect pano yaw_deg pitch_deg fov_deg out_w out_h).length = out_h
    ∧ ∀ row ∈ perspective_from_equirect pano yaw_deg pitch_deg fov_deg out_w out_h,
        row.length = out_w := by
  constructor
  · simp [perspective_from_equirect]
  · intro row hrow
    simp only [perspective_from_equirect, List.mem_map] at hrow
    obtain ⟨py, _, hrow⟩ := hrow
    rw [← hrow]
    simp

/-- Witness for C10 at a concrete panorama and configuration. -/
theorem perspective_from_equirect_dims_witness :
    (0 < 4 ∧ 0 < 2 ∧ (0:ℝ) < 90 ∧ (90:ℝ) < 180 ∧ 0 < 3 ∧ 0 < 3)
    ∧ ((perspective_from_equirect ⟨4, 2, fun _ _ _ => 0⟩ 0 0 90 3 3).length = 3
       ∧ ∀ row ∈ perspective_from_equirect ⟨4, 2, fun _ _ _ => 0⟩ 0 0 90 3 3,
           row.length = 3) :=
  ⟨⟨by norm_num, by norm_num, by norm_num, by norm_num, by norm_num, by norm_num⟩,
    perspective_from_equirect_dims ⟨4, 2, fun _ _ _ => 0⟩ 0 0 90 3 3
      (by norm_num) (by norm_num) (by norm_num) (by norm_num)
      (by norm_num) (by norm_num)⟩

/- ------------------------------------------------------------------ -/
/- C8: wrap versus clamp in the resampling step.                      -/
/- ------------------------------------------------------------------ -/

/-- A concrete 4 x 2 panorama whose top row is 0 and bottom row is 1,
used to distinguish vertical wrapping from vertical clamping. -/
def cpano : Image :=
  { w := 4, h := 2, pix := fun _ j _ => if j = 0 then 0 else 1 }

lemma radians_ninety : radians 90 = Real.pi / 2 := by
  unfold radians
  ring

/-- The source coordinates of the center pixel of a 3 x 3 output at yaw 0,
pitch 90, fov 90 over a 4 x 2 panorama: the ray points straight at the
bottom pole, so `y_pano` equals the full panorama height 2 and `x_pano`
is the middle column 2. -/
lemma src_coords_center_pitch90 : src_coords 4 2 0 90 90 3 3 1 1 = (2, 2) := by
  have hr0 : radians 0 = 0 := by unfold radians; ring
  simp only [src_coords, hr0, radians_ninety]
  rw [show Real.pi / 2 / 2 = Real.pi / 4 by ring, Real.tan_pi_div_four]
  simp only [linspace_at, if_neg (by norm_num : ¬ (3 ≤ 1))]
  norm_num
  rw [atan2_zero_zero,
    show Real.sqrt 9 = 3 by
      rw [show (9:ℝ) = 3 ^ 2 by norm_num, Real.sqrt_sq (by norm_num)],
    show Real.sqrt 4 = 2 by
      rw [show (4:ℝ) = 2 ^ 2 by norm_num, Real.sqrt_sq (by norm_num)]]
  norm_num
  have hpi := Real.pi_ne_zero
  field_simp
  ring

lemma floor_two : ⌊(2:ℝ)⌋ = 2 := by norm_num

/-- The wrapped sampler at the exact source coordinates (2, 2) of `cpano`
reads row 2 mod 2 = 0 (it wraps past the bottom edge back to the top
row) and returns 0. -/
lemma sample_wrap_cpano_two_two : sample_wrap cpano 2 2 ⟨0, by norm_num⟩ = 0 := by
  simp only [sample_wrap, floor_two, cpano]
  norm_num

/-- The horizontally-wrapping, vertically-clamping sampler of the spec at
the same coordinates clamps row 2 to the last row 1 and returns 1. -/
lemma sample_hwrap_vclamp_cpano_two_two :
    sample_hwrap_vclamp cpano 2 2 ⟨0, by norm_num⟩ = 1 := by
  simp only [sample_hwrap_vclamp, floor_two, cpano]
  norm_num

/-- C8 counterexample: the code's resampling does not clamp the vertical
source coordinate; `BORDER_WRAP` wraps it modulo the panorama height.  At
yaw 0, pitch 90, fov 90 on a 3 x 3 output, the center output pixel maps to
source coordinates (2, 2) of the 4 x 2 panorama `cpano` (the bottom pole),
where the code samples the top row (value 0) while vertical clamping would
sample the bottom row (value 1).  Hence the claim that the vertical
coordinate is clamped and never wraps is false of the code. -/
theorem sampling_not_vertically_clamped :
    ¬ (∀ (pano : Image) (yaw_deg pitch_deg fov_deg : ℝ) (out_w out_h px py : ℕ),
        px < out_w → py < out_h →
        ((perspective_from_equirect pano yaw_deg pitch_deg fov_deg out_w out_h).getD py
            []).getD px zeroPix
          = sample_hwrap_vclamp pano
              (src_coords pano.w pano.h yaw_deg pitch_deg fov_deg out_w out_h px py).1
              (src_coords pano.w pano.h yaw_deg pitch_deg fov_deg out_w out_h px py).2) := by
  intro hcl
  have h := hcl cpano 0 90 90 3 3 1 1 (by norm_num) (by norm_num)
  have hlhs : ((perspective_from_equirect cpano 0 90 90 3 3).getD 1 []).getD 1 zeroPix
      = sample_wrap cpano
          (src_coords cpano.w cpano.h 0 90 90 3 3 1 1).1
          (src_coords cpano.w cpano.h 0 90 90 3 3 1 1).2 := rfl
  rw [hlhs] at h
  have hwh : src_coords cpano.w cpano.h 0 90 90 3 3 1 1 = (2, 2) := by
    have hw : cpano.w = 4 := rfl
    have hh : cpano.h = 2 := rfl
    rw [hw, hh, src_coords_center_pitch90]
  rw [hwh] at h
  have h0 := congrFun h ⟨0, by norm_num⟩
  rw [sample_wrap_cpano_two_two, sample_hwrap_vclamp_cpano_two_two] at h0
  norm_num at h0

/-- C8 amended: the horizontal half of the claim holds and the vertical
half is wrap, not clamp: the code's bilinear sampler (cv2.remap with
`BORDER_WRAP`) is periodic in BOTH axes, so the sampled value depends on
the horizontal source coordinate only modulo the panorama width and on the
vertical source coordinate only modulo the panorama height; at the poles
the vertical coordinate wraps to the opposite edge instead of clamping. -/
theorem sample_wrap_periodic_both_axes (img : Image) (x y : ℝ) :
    sample_wrap img (x + img.w) y = sample_wrap img x y
    ∧ sample_wrap img x (y + img.h) = sample_wrap img x y := by
  constructor
  · funext k
    simp only [sample_wrap]
    have hfl : ⌊x + (img.w : ℝ)⌋ = ⌊x⌋ + (img.w : ℤ) := by
      exact_mod_cast Int.floor_add_nat x img.w
    rw [hfl]
    have h1 : (⌊x⌋ + (img.w : ℤ)) % (img.w : ℤ) = ⌊x⌋ % (img.w : ℤ) :=
      Int.add_emod_self
    have h2 : (⌊x⌋ + (img.w : ℤ) + 1) % (img.w : ℤ) = (⌊x⌋ + 1) % (img.w : ℤ) := by
      rw [add_right_comm]
      exact Int.add_emod_self
    rw [h1, h2]
    push_cast
    ring_nf
  · funext k
    simp only [sample_wrap]
    have hfl : ⌊y + (img.h : ℝ)⌋ = ⌊y⌋ + (img.h : ℤ) := by
      exact_mod_cast Int.floor_add_nat y img.h
    rw [hfl]
    have h1 : (⌊y⌋ + (img.h : ℤ)) % (img.h : ℤ) = ⌊y⌋ % (img.h : ℤ) :=
      Int.add_emod_self
    have h2 : (⌊y⌋ + (img.h : ℤ) + 1) % (img.h : ℤ) = (⌊y⌋ + 1) % (img.h : ℤ) := by
      rw [add_right_comm]
      exact Int.add_emod_self
    rw [h1, h2]
    push_cast
    ring_nf

/- ------------------------------------------------------------------ -/
/- C9: the four-view builder and its 360-degree tiling.               -/
/- ------------------------------------------------------------------ -/

/-- The orientation-name lookup of `generate_normal_views_for_pano`
(`names = {0: "front", 90: "right", 180: "back", 270: "left"}` with
`names.get(yaw, str(yaw))`). -/
def yaw_name (yaw : ℕ) : String :=
  match yaw with
  | 0 => "front"
  | 90 => "right"
  | 180 => "back"
  | 270 => "left"
  | y => toString y

/-- Embedding of the view-generation loop of `generate_normal_views_for_pano`
(GoogleVR3/GoogleVR1.py, lines 262-287): for each yaw in `[0, 90, 180, 270]`
produce one perspective view at pitch 0, fov 90 degrees and output
resolution 800 x 600, keyed by its orientation name (Python dicts keep
insertion order, so the result is an ordered association list). -/
noncomputable def generate_normal_views (pano : Image) : List (String × List (List Pix)) :=
  [0, 90, 180, 270].map fun yaw =>
    (yaw_name yaw, perspective_from_equirect pano (yaw : ℕ) 0 90 800 600)

/-- The horizontal angular field covered by a perspective view at the
given yaw with the given horizontal field of view, as a half-open interval
of longitudes in degrees. -/
def hfov_interval (yaw fov : ℝ) : Set ℝ :=
  Set.Ico (yaw - fov / 2) (yaw + fov / 2)

/-- C9: the view-set builder produces exactly four rasters, labeled
front, right, back, left in that order, at yaws 0, 90, 180, 270 degrees
with pitch 0 and a 90-degree field of view; and the four horizontal
fields of width 90 degrees centered at those yaws tile the full circle
(their union is a half-open interval of length 360, and they are pairwise
disjoint: no overlap, no gap). -/
theorem generate_normal_views_four_tiling (pano : Image) :
    generate_normal_views pano
      = [("front", perspective_from_equirect pano 0 0 90 800 600),
         ("right", perspective_from_equirect pano 90 0 90 800 600),
         ("back", perspective_from_equirect pano 180 0 90 800 600),
         ("left", perspective_from_equirect pano 270 0 90 800 600)]
    ∧ (generate_normal_views pano).length = 4
    ∧ (generate_normal_views pano).map Prod.fst = ["front", "right", "back", "left"]
    ∧ hfov_interval 0 90 ∪ hfov_interval 90 90 ∪ hfov_interval 180 90
        ∪ hfov_interval 270 90 = Set.Ico (-45 : ℝ) 315
    ∧ List.Pairwise (fun a b => Disjoint (hfov_interval a 90) (hfov_interval b 90))
        ([0, 90, 180, 270] : List ℝ) := by
  have hiv : ∀ yaw : ℝ, hfov_interval yaw 90 = Set.Ico (yaw - 45) (yaw + 45) := by
    intro yaw
    unfold hfov_interval
    norm_num
  refine ⟨?_, ?_, ?_, ?_, ?_⟩
  · simp [generate_normal_views, yaw_name]
  · simp [generate_normal_views]
  · simp [generate_normal_views, yaw_name]
  · rw [hiv, hiv, hiv, hiv]
    norm_num
  · refine List.Pairwise.cons ?_ (List.Pairwise.cons ?_
      (List.Pairwise.cons ?_ (List.pairwise_singleton _ _)))
    all_goals
      intro b hb
      rw [hiv, hiv, Set.Ico_disjoint_Ico]
      fin_cases hb <;> norm_num

end AgniVed
